import Mathlib

/-!
# Change application of the container monitor (`monitor/change.go`)

The three changes (`stopChange`, `startChange`, `deleteChange`) and the helper
`killTask` / `getConfig` only sequence calls to collaborators: the containerd
client (container and task), the network binders and the service register.
The embedding makes the sequence explicit:

* every collaborator call appends one `Call` to a trace;
* the collaborators are a `World`: each answer is a function of the trace of
  calls made before it (any deterministic environment is such a function);
* a function returns the pair of its `Outcome` and the trace it leaves.

`logrus` output is not modelled: where the source only logs an error, the
embedding goes through `logIfError`, which leaves the trace as it is.
-/

namespace Monitor

/-- A non-nil Go `error`; a Go `error` value is an `Option Err`, `none` for `nil`. -/
abbrev Err := String

/-- Handle of a `containerd.Task`. -/
abbrev TaskH := Nat

/-- A service definition (`config.Service`), a payload that is only passed on. -/
abbrev Service := String

/-- A `types.Any` blob stored in the extensions of a container. -/
abbrev Any := String

/-- The two signals `killTask` sends. -/
inductive Signal
  | SIGTERM
  | SIGKILL
deriving DecidableEq, Repr

/-- The fields of `config.Container` that `change.go` reads. `Services` lists the
entries of the Go map in the order in which `range` visits them; the keys of a
map are pairwise different. -/
structure Container where
  ID : String
  Network : String
  Services : List (String × Service)
deriving DecidableEq, Repr

/-- What `typeurl.UnmarshalAny` hands back: a `*config.Container` or a value of
another registered type. -/
inductive Value
  | container (c : Container)
  | other
deriving DecidableEq, Repr

/-- The part of `containers.Container` (the result of `container.Info`) that
`getConfig` reads: the extension map, with the zero `Any` for an absent key. -/
structure Info where
  Extensions : String → Any

/-- One call to a collaborator, with the arguments the source passes. -/
inductive Call
  /-- Source call `s.m.register.EnableMaintainance(id, reason)` -/
  | EnableMaintainance (id reason : String)
  /-- Source call `s.m.register.DisableMaintainance(id)` -/
  | DisableMaintainance (id : String)
  /-- Source call `s.m.register.Register(id, name, ip, srv)` -/
  | Register (id name ip : String) (srv : Service)
  /-- Source call `s.m.register.Deregister(id)` -/
  | Deregister (id : String)
  /-- Source call `container.Task(ctx, nil)` -/
  | containerTask
  /-- Source call `task.Wait(ctx)` -/
  | taskWait (task : TaskH)
  /-- Source call `task.Kill(ctx, signal, containerd.WithKillAll)`; `all` is the option. -/
  | taskKill (task : TaskH) (signal : Signal) (all : Bool)
  /-- Source call `task.Delete(ctx)`, or `task.Delete(ctx, containerd.WithProcessKill)`
  when `processKill` is set. -/
  | taskDelete (task : TaskH) (processKill : Bool)
  /-- Source call `container.Info(ctx)` -/
  | containerInfo
  /-- Source call `container.NewTask(ctx, cio.NewCreator(cio.WithStdio))` -/
  | containerNewTask
  /-- Source call `s.m.networks[network].Create(task)` -/
  | networkCreate (network : String) (task : TaskH)
  /-- Source call `s.m.networks[network].Remove(container)` -/
  | networkRemove (network : String)
  /-- Source call `task.Start(ctx)` -/
  | taskStart (task : TaskH)
  /-- Source call `os.RemoveAll(filepath.Join(root, id))` -/
  | osRemoveAll (root id : String)
  /-- Source call `container.Delete(ctx, containerd.WithSnapshotCleanup)`; the flag is the option. -/
  | containerDelete (snapshotCleanup : Bool)
deriving DecidableEq, Repr

/-- A network binder, one value of the map `s.m.networks`. -/
structure Network where
  Create : List Call → TaskH → Except Err String
  Remove : List Call → Option Err

/-- The service register `s.m.register`. -/
structure Registrar where
  EnableMaintainance : List Call → String → String → Option Err
  DisableMaintainance : List Call → String → Option Err
  Register : List Call → String → String → String → Service → Option Err
  Deregister : List Call → String → Option Err

/-- The collaborators of one change. Every answer depends on the calls made so
far (the first argument). `exitWithin tr task d` is the outcome of the `select`
in `killTask`: `true` when the exit notification of `task.Wait` is received
first, `false` when the timer of `d` seconds fires first. -/
structure World where
  /-- Value of `container.ID()` -/
  ID : String
  /-- Value of `config.Root` -/
  Root : String
  /-- Value of `config.Extension` -/
  Extension : String
  Task : List Call → Except Err TaskH
  Wait : List Call → TaskH → Option Err
  Kill : List Call → TaskH → Signal → Option Err
  Delete : List Call → TaskH → Bool → Option Err
  exitWithin : List Call → TaskH → Nat → Bool
  Info : List Call → Except Err Info
  UnmarshalAny : Any → Except Err Value
  NewTask : List Call → Except Err TaskH
  Start : List Call → TaskH → Option Err
  RemoveAll : List Call → String → String → Option Err
  ContainerDelete : List Call → Option Err
  register : Registrar
  networks : String → Option Network

/-- How a run ends: the function returns its `error`, it panics (a failed type
assertion, a method call on a nil interface), or the `kill` loop has not left
after the allowed number of rounds. -/
inductive Outcome
  | returned (err : Option Err)
  | panicked
  | unfinished
deriving DecidableEq, Repr

/-- The pattern `if err != nil { logrus.WithError(err).Error(..) }`: the error is
looked at and logged, and the run goes on from the same trace either way. -/
def logIfError (err : Option Err) (tr : List Call) : List Call :=
  match err with
  | some _ => tr
  | none => tr

/-- Seconds of `time.After(10 * time.Second)`. -/
def patience : Nat := 10

/-- The code of `killTask` from the label `kill:` on, entered with the current
`signal`. `fuel` bounds the number of times the label is reached. -/
def killLoop (w : World) (task : TaskH) : Nat → Signal → List Call → Outcome × List Call
  | 0, _, tr => (Outcome.unfinished, tr)
  | fuel + 1, signal, tr =>
    let tr1 := tr ++ [Call.taskKill task signal true]
    match w.Kill tr task signal with
    | some err =>
      let tr2 := tr1 ++ [Call.taskDelete task false]
      match w.Delete tr1 task false with
      | none => (Outcome.returned none, tr2)
      | some _ => (Outcome.returned (some err), tr2)
    | none =>
      if w.exitWithin tr1 task patience then
        let tr2 := tr1 ++ [Call.taskDelete task false]
        match w.Delete tr1 task false with
        | some err => (Outcome.returned (some err), tr2)
        | none => (Outcome.returned none, tr2)
      else
        killLoop w task fuel Signal.SIGKILL tr1

/-- Function `killTask(ctx, container)`. -/
def killTask (w : World) (fuel : Nat) (tr : List Call) : Outcome × List Call :=
  let tr1 := tr ++ [Call.containerTask]
  match w.Task tr with
  | Except.error _ => (Outcome.returned none, tr1)
  | Except.ok task =>
    let tr2 := tr1 ++ [Call.taskWait task]
    match w.Wait tr1 task with
    | some err =>
      let tr3 := tr2 ++ [Call.taskDelete task false]
      match w.Delete tr2 task false with
      | none => (Outcome.returned none, tr3)
      | some _ => (Outcome.returned (some err), tr3)
    | none => killLoop w task fuel Signal.SIGTERM tr2

/-- Result of `getConfig`: the configuration, an error, or the panic of the
type assertion `v.(*config.Container)`. -/
inductive ConfigResult
  | ok (config : Container)
  | error (err : Err)
  | panic
deriving DecidableEq, Repr

/-- Function `getConfig(ctx, container)`. -/
def getConfig (w : World) (tr : List Call) : ConfigResult × List Call :=
  let tr1 := tr ++ [Call.containerInfo]
  match w.Info tr with
  | Except.error err => (ConfigResult.error err, tr1)
  | Except.ok info =>
    let d := info.Extensions w.Extension
    match w.UnmarshalAny d with
    | Except.error err => (ConfigResult.error err, tr1)
    | Except.ok (Value.container c) => (ConfigResult.ok c, tr1)
    | Except.ok Value.other => (ConfigResult.panic, tr1)

/-- Method `(s *stopChange) apply`. The error of `EnableMaintainance` is only logged. -/
def stopChange.apply (w : World) (fuel : Nat) (tr : List Call) : Outcome × List Call :=
  let tr1 := logIfError (w.register.EnableMaintainance tr w.ID "manual stop")
    (tr ++ [Call.EnableMaintainance w.ID "manual stop"])
  match killTask w fuel tr1 with
  | (Outcome.returned (some err), tr2) => (Outcome.returned (some err), tr2)
  | (Outcome.returned none, tr2) => (Outcome.returned none, tr2)
  | other => other

/-- The loop `for name, srv := range config.Services` of `startChange.apply`:
one `Register` per entry; its error is only logged. -/
def registerServices (w : World) (id ip : String) : List (String × Service) → List Call → List Call
  | [], tr => tr
  | (name, srv) :: rest, tr =>
    registerServices w id ip rest
      (logIfError (w.register.Register tr id name ip srv) (tr ++ [Call.Register id name ip srv]))

/-- Method `(s *startChange) apply`. The result of the first `killTask` is dropped; the
errors of the `task.Delete` after a failed `Create` and of
`DisableMaintainance` are only logged. -/
def startChange.apply (w : World) (fuel : Nat) (tr : List Call) : Outcome × List Call :=
  match killTask w fuel tr with
  | (Outcome.returned _, tr0) =>
    match getConfig w tr0 with
    | (ConfigResult.error err, tr1) => (Outcome.returned (some err), tr1)
    | (ConfigResult.panic, tr1) => (Outcome.panicked, tr1)
    | (ConfigResult.ok config, tr1) =>
      let tr2 := tr1 ++ [Call.containerNewTask]
      match w.NewTask tr1 with
      | Except.error err => (Outcome.returned (some err), tr2)
      | Except.ok task =>
        match w.networks config.Network with
        | none => (Outcome.panicked, tr2)
        | some net =>
          let tr3 := tr2 ++ [Call.networkCreate config.Network task]
          match net.Create tr2 task with
          | Except.error err =>
            (Outcome.returned (some err),
              logIfError (w.Delete tr3 task true) (tr3 ++ [Call.taskDelete task true]))
          | Except.ok ip =>
            let tr4 := if ip ≠ "" then registerServices w config.ID ip config.Services tr3 else tr3
            let tr5 := tr4 ++ [Call.taskStart task]
            match w.Start tr4 task with
            | some err => (Outcome.returned (some err), tr5)
            | none =>
              (Outcome.returned none,
                logIfError (w.register.DisableMaintainance tr5 config.ID)
                  (tr5 ++ [Call.DisableMaintainance config.ID]))
  | other => other

/-- Method `(s *deleteChange) apply`. The error of `os.RemoveAll` is only logged; the
results of `Deregister` and `Remove` are dropped without a look. -/
def deleteChange.apply (w : World) (tr : List Call) : Outcome × List Call :=
  let tr1 := logIfError (w.RemoveAll tr w.Root w.ID) (tr ++ [Call.osRemoveAll w.Root w.ID])
  match getConfig w tr1 with
  | (ConfigResult.error err, tr2) => (Outcome.returned (some err), tr2)
  | (ConfigResult.panic, tr2) => (Outcome.panicked, tr2)
  | (ConfigResult.ok config, tr2) =>
    let tr3 := tr2 ++ [Call.Deregister w.ID]
    match w.networks config.Network with
    | none => (Outcome.panicked, tr3)
    | some _ =>
      let tr4 := tr3 ++ [Call.networkRemove config.Network]
      (Outcome.returned (w.ContainerDelete tr4), tr4 ++ [Call.containerDelete true])

/-! ## Reading a trace -/

/-- The calls a run added to the trace `tr` it started from. -/
def newCalls (tr : List Call) (out : Outcome × List Call) : List Call :=
  out.2.drop tr.length

/-- The signals of the `task.Kill` calls of a trace, in order. -/
def killSignals : List Call → List Signal
  | [] => []
  | Call.taskKill _ signal _ :: rest => signal :: killSignals rest
  | _ :: rest => killSignals rest

/-- The call is a `task.Wait`. -/
def Call.isWait : Call → Bool
  | Call.taskWait _ => true
  | _ => false

/-- The call is a `task.Kill`. -/
def Call.isKill : Call → Bool
  | Call.taskKill _ _ _ => true
  | _ => false

/-- The call is a `task.Delete`, with or without option. -/
def Call.isTaskDelete : Call → Bool
  | Call.taskDelete _ _ => true
  | _ => false

/-- The call is a `Register`. -/
def Call.isRegister : Call → Bool
  | Call.Register _ _ _ _ => true
  | _ => false

/-- The call is a `task.Start`. -/
def Call.isStart : Call → Bool
  | Call.taskStart _ => true
  | _ => false

/-- The call is a `DisableMaintainance`. -/
def Call.isDisableMaintainance : Call → Bool
  | Call.DisableMaintainance _ => true
  | _ => false

/-- The four calls `killTask` can make: the task lookup, `Wait`, `Kill` with
`WithKillAll`, and `Delete` without option. -/
def Call.ofKillTask : Call → Bool
  | Call.containerTask => true
  | Call.taskWait _ => true
  | Call.taskKill _ _ true => true
  | Call.taskDelete _ false => true
  | _ => false

/-- The signals of the first `n` passes through the label `kill:` when the
first pass sends `signal`: every later pass sends SIGKILL. -/
def escalation (signal : Signal) : Nat → List Signal
  | 0 => []
  | n + 1 => signal :: escalation Signal.SIGKILL n

/-- The `task.Kill` calls of the first `n` passes through the label `kill:`. -/
def sends (task : TaskH) (signal : Signal) (n : Nat) : List Call :=
  (escalation signal n).map (fun s => Call.taskKill task s true)

/-- The signal of pass `i` (from 0) through the label `kill:`. -/
def signalAt (signal : Signal) : Nat → Signal
  | 0 => signal
  | _ + 1 => Signal.SIGKILL

/-- The first `n` passes through the label `kill:`, entered at the trace `tr`
with `signal`, all take the timer branch of the `select`: each `Kill` succeeds
and the window after it expires before the exit notification. -/
def windowsExpire (w : World) (task : TaskH) (signal : Signal) (tr : List Call) (n : Nat) :
    Prop :=
  ∀ i, i < n →
    w.Kill (tr ++ sends task signal i) task (signalAt signal i) = none ∧
    w.exitWithin (tr ++ sends task signal (i + 1)) task patience = false

/-- Every `NewTask` call that a run started at `tr` has made by the trace `out`
comes after a `task.Delete` of `task` that succeeded. -/
def newTaskOnlyAfterDelete (w : World) (task : TaskH) (tr out : List Call) : Prop :=
  ∀ a b, out = tr ++ a ++ Call.containerNewTask :: b →
    ∃ pre post, a = pre ++ Call.taskDelete task false :: post ∧
      w.Delete (tr ++ pre) task false = none

/-- The collaborators `w` with the answers of `Register` replaced by `answer`. -/
def World.withRegister (w : World)
    (answer : List Call → String → String → String → Service → Option Err) : World :=
  { w with register := { w.register with Register := answer } }

/-! ## Concrete collaborators -/

/-- The configuration of the container `web1` of the scenario of the specification. -/
def web1 : Container :=
  { ID := "web1", Network := "bridge0", Services := [("http", "def")] }

/-- A binder that hands out the address `10.0.0.2`. -/
def bridge0 : Network :=
  { Create := fun _ _ => Except.ok "10.0.0.2", Remove := fun _ => none }

/-- A register on which every call succeeds. -/
def consul : Registrar :=
  { EnableMaintainance := fun _ _ _ => none
    DisableMaintainance := fun _ _ => none
    Register := fun _ _ _ _ _ => none
    Deregister := fun _ _ => none }

/-- Collaborators on which every call succeeds: the container `web1` has the
task `1`, which exits within the window after the first signal; `NewTask`
creates the task `2`; every network name has the binder `bridge0`. -/
def calm : World :=
  { ID := "web1"
    Root := "/var/lib/boss"
    Extension := "io.boss/container"
    Task := fun _ => Except.ok 1
    Wait := fun _ _ => none
    Kill := fun _ _ _ => none
    Delete := fun _ _ _ => none
    exitWithin := fun _ _ _ => true
    Info := fun _ => Except.ok { Extensions := fun _ => "web1.toml" }
    UnmarshalAny := fun _ => Except.ok (Value.container web1)
    NewTask := fun _ => Except.ok 2
    Start := fun _ _ => none
    RemoveAll := fun _ _ _ => none
    ContainerDelete := fun _ => none
    register := consul
    networks := fun _ => some bridge0 }

/-- As `calm`, but the container has no task. -/
def noTask : World :=
  { calm with Task := fun _ => Except.error "no running task found" }

/-- As `calm`, but `task.Wait` fails. -/
def waitFails : World :=
  { calm with Wait := fun _ _ => some "wait: unavailable" }

/-- As `calm`, but every `task.Kill` fails and so does every `task.Delete`. -/
def killFails : World :=
  { calm with
    Kill := fun _ _ _ => some "kill: permission denied"
    Delete := fun _ _ _ => some "task must be stopped before deletion" }

/-- As `calm`, but the task `1` ignores the signals: the exit notification
arrives only in the window after the third `task.Kill`. -/
def stubborn : World :=
  { calm with exitWithin := fun tr _ _ => decide (3 ≤ (killSignals tr).length) }

/-- As `calm`, but the task `1` ignores SIGTERM and the SIGKILL send fails. -/
def sigkillFails : World :=
  { calm with
    exitWithin := fun _ _ _ => false
    Kill := fun _ _ signal => if signal = Signal.SIGKILL then some "kill: no such process" else none }

/-- A binder whose `Create` fails. -/
def brokenBridge : Network :=
  { Create := fun _ _ => Except.error "bridge0: no address left", Remove := fun _ => none }

/-- As `calm`, but the binder fails to create the interface and the delete of
the new task fails too. -/
def createFails : World :=
  { calm with
    networks := fun _ => some brokenBridge
    Delete := fun _ _ processKill => if processKill then some "delete: busy" else none }

/-- A binder that sets up no interface and hands out the empty address. -/
def hostNetwork : Network :=
  { Create := fun _ _ => Except.ok "", Remove := fun _ => none }

/-- As `calm`, but on the host network: the address is empty. -/
def emptyAddress : World :=
  { calm with networks := fun _ => some hostNetwork }

/-- As `calm`, but removing the root directory fails, and so do `Deregister`
and the `Remove` of the binder. -/
def cleanupFails : World :=
  { calm with
    RemoveAll := fun _ _ _ => some "unlinkat: permission denied"
    register := { consul with Deregister := fun _ _ => some "consul: unreachable" }
    networks := fun _ =>
      some { Create := fun _ _ => Except.ok "10.0.0.2", Remove := fun _ => some "netns busy" } }

/-- As `calm`, but the map `s.m.networks` has no binder at all: the lookup of
any network name gives the nil interface. -/
def noBinder : World :=
  { calm with networks := fun _ => none }

/-- As `calm`, but the first task lookup fails on the transport although the
task `1` is there: a lookup made after two or more calls finds it. -/
def flakyLookup : World :=
  { calm with
    Task := fun tr =>
      if tr.length ≤ 1 then Except.error "lookup: transport is closing" else Except.ok 1 }

/-! ## Lemmas on `killTask` -/

@[simp] theorem logIfError_eq (err : Option Err) (tr : List Call) : logIfError err tr = tr := by
  cases err <;> rfl

@[simp] theorem newCalls_append (tr ks : List Call) (o : Outcome) :
    newCalls tr (o, tr ++ ks) = ks := by
  simp [newCalls]

theorem killSignals_append (a b : List Call) :
    killSignals (a ++ b) = killSignals a ++ killSignals b := by
  induction a with
  | nil => rfl
  | cons c rest ih => cases c <;> simp [killSignals, ih]

/-- A run of the `kill` loop only adds calls of `killTask`. -/
theorem killLoop_calls (w : World) (task : TaskH) (fuel : Nat) :
    ∀ (signal : Signal) (tr : List Call), ∃ ks, (killLoop w task fuel signal tr).2 = tr ++ ks ∧
      ∀ c ∈ ks, c.ofKillTask = true := by
  induction fuel with
  | zero => intro signal tr; exact ⟨[], by simp [killLoop], by simp⟩
  | succ n ih =>
    intro signal tr
    cases hk : w.Kill tr task signal with
    | some err =>
      refine ⟨[Call.taskKill task signal true, Call.taskDelete task false], ?_, ?_⟩
      · cases hd : w.Delete (tr ++ [Call.taskKill task signal true]) task false <;>
          simp [killLoop, hk, hd]
      · simp [Call.ofKillTask]
    | none =>
      cases hx : w.exitWithin (tr ++ [Call.taskKill task signal true]) task patience with
      | true =>
        refine ⟨[Call.taskKill task signal true, Call.taskDelete task false], ?_, ?_⟩
        · cases hd : w.Delete (tr ++ [Call.taskKill task signal true]) task false <;>
            simp [killLoop, hk, hx, hd]
        · simp [Call.ofKillTask]
      | false =>
        obtain ⟨ks, h1, h2⟩ := ih Signal.SIGKILL (tr ++ [Call.taskKill task signal true])
        refine ⟨Call.taskKill task signal true :: ks, ?_, ?_⟩
        · simp [killLoop, hk, hx, h1]
        · intro c hc
          rcases List.mem_cons.mp hc with h | h
          · subst h; rfl
          · exact h2 c h

/-- A run of `killTask` only adds calls of `killTask`. -/
theorem killTask_calls (w : World) (fuel : Nat) (tr : List Call) :
    ∃ ks, (killTask w fuel tr).2 = tr ++ ks ∧ ∀ c ∈ ks, c.ofKillTask = true := by
  cases ht : w.Task tr with
  | error e => exact ⟨[Call.containerTask], by simp [killTask, ht], by simp [Call.ofKillTask]⟩
  | ok task =>
    cases hw : w.Wait (tr ++ [Call.containerTask]) task with
    | some err =>
      refine ⟨[Call.containerTask, Call.taskWait task, Call.taskDelete task false], ?_, ?_⟩
      · cases hd : w.Delete (tr ++ [Call.containerTask, Call.taskWait task]) task false <;>
          simp [killTask, ht, hw, hd]
      · simp [Call.ofKillTask]
    | none =>
      obtain ⟨ks, h1, h2⟩ := killLoop_calls w task fuel Signal.SIGTERM
        (tr ++ [Call.containerTask, Call.taskWait task])
      refine ⟨Call.containerTask :: Call.taskWait task :: ks, ?_, ?_⟩
      · simp [killTask, ht, hw, h1]
      · intro c hc
        simp only [List.mem_cons] at hc
        rcases hc with h | h | h
        · subst h; rfl
        · subst h; rfl
        · exact h2 c h

/-- When the `kill` loop returns, its last call is the `task.Delete`, and the
loop returns `nil` exactly when that `Delete` succeeded. -/
theorem killLoop_returned (w : World) (task : TaskH) (fuel : Nat) :
    ∀ (signal : Signal) (tr : List Call) (r : Option Err) (out : List Call),
      killLoop w task fuel signal tr = (Outcome.returned r, out) →
      ∃ mid, out = tr ++ mid ++ [Call.taskDelete task false] ∧
        (r = none ↔ w.Delete (tr ++ mid) task false = none) := by
  induction fuel with
  | zero => intro signal tr r out h; simp [killLoop] at h
  | succ n ih =>
    intro signal tr r out h
    cases hk : w.Kill tr task signal with
    | some err =>
      refine ⟨[Call.taskKill task signal true], ?_⟩
      cases hd : w.Delete (tr ++ [Call.taskKill task signal true]) task false <;>
        simp [killLoop, hk, hd] at h <;> obtain ⟨h1, h2⟩ := h <;> subst h1 <;> subst h2 <;>
        simp [hd]
    | none =>
      cases hx : w.exitWithin (tr ++ [Call.taskKill task signal true]) task patience with
      | true =>
        refine ⟨[Call.taskKill task signal true], ?_⟩
        cases hd : w.Delete (tr ++ [Call.taskKill task signal true]) task false <;>
          simp [killLoop, hk, hd, hx] at h <;> obtain ⟨h1, h2⟩ := h <;> subst h1 <;> subst h2 <;>
          simp [hd]
      | false =>
        simp only [killLoop, hk, hx] at h
        obtain ⟨mid, h1, h2⟩ := ih Signal.SIGKILL _ r out h
        refine ⟨Call.taskKill task signal true :: mid, ?_, ?_⟩
        · simp [h1]
        · simpa using h2

@[simp] theorem signalAt_SIGKILL (i : Nat) : signalAt Signal.SIGKILL i = Signal.SIGKILL := by
  cases i <;> rfl

/-- After `n` expired windows the `kill` loop stands at the label again, with
the `n` sends in the trace. -/
theorem killLoop_windowsExpire (w : World) (task : TaskH) (m : Nat) (n : Nat) :
    ∀ (signal : Signal) (tr : List Call), windowsExpire w task signal tr n →
      killLoop w task (n + m) signal tr =
        killLoop w task m (signalAt signal n) (tr ++ sends task signal n) := by
  induction n with
  | zero => intro signal tr _; simp [sends, escalation, signalAt]
  | succ n ih =>
    intro signal tr h
    have h0 := h 0 (Nat.succ_pos n)
    simp only [sends, escalation, signalAt, List.map_nil, List.append_nil, List.map_cons,
      Nat.zero_add] at h0
    have hrest : windowsExpire w task Signal.SIGKILL (tr ++ [Call.taskKill task signal true]) n := by
      intro i hi
      have hi1 := h (i + 1) (Nat.succ_lt_succ hi)
      rw [signalAt_SIGKILL]
      simpa [sends, escalation, signalAt] using hi1
    have hstep : killLoop w task (n + 1 + m) signal tr =
        killLoop w task (n + m) Signal.SIGKILL (tr ++ [Call.taskKill task signal true]) := by
      rw [show n + 1 + m = (n + m) + 1 by omega]
      simp [killLoop, h0.1, h0.2]
    rw [hstep, ih Signal.SIGKILL _ hrest]
    cases n <;> simp [sends, escalation, signalAt]

theorem escalation_SIGKILL (n : Nat) :
    escalation Signal.SIGKILL n = List.replicate n Signal.SIGKILL := by
  induction n with
  | zero => rfl
  | succ n ih => simp [escalation, ih, List.replicate_succ]

theorem escalation_succ (n : Nat) :
    ∀ signal : Signal, escalation signal (n + 1) = escalation signal n ++ [signalAt signal n] := by
  induction n with
  | zero => intro signal; rfl
  | succ n ih =>
    intro signal
    have h := ih Signal.SIGKILL
    rw [signalAt_SIGKILL] at h
    rw [escalation, h]
    rfl

theorem sends_succ (task : TaskH) (signal : Signal) (n : Nat) :
    sends task signal (n + 1) =
      sends task signal n ++ [Call.taskKill task (signalAt signal n) true] := by
  simp [sends, escalation_succ]

theorem killSignals_sends (task : TaskH) (n : Nat) :
    ∀ signal : Signal, killSignals (sends task signal n) = escalation signal n := by
  induction n with
  | zero => intro signal; rfl
  | succ n ih =>
    intro signal
    have h := ih Signal.SIGKILL
    simp only [sends] at h
    simp [sends, escalation, killSignals, h]

/-- One pass through the label `kill:` in which the send fails. -/
theorem killLoop_send_fails (w : World) (task : TaskH) (fuel : Nat) (signal : Signal)
    (tr : List Call) (e : Err) (hk : w.Kill tr task signal = some e) :
    killLoop w task (fuel + 1) signal tr =
      (Outcome.returned
          ((w.Delete (tr ++ [Call.taskKill task signal true]) task false).map (fun _ => e)),
        tr ++ [Call.taskKill task signal true, Call.taskDelete task false]) := by
  cases hd : w.Delete (tr ++ [Call.taskKill task signal true]) task false <;>
    simp [killLoop, hk, hd]

/-- One pass through the label `kill:` in which the exit notification arrives. -/
theorem killLoop_exit (w : World) (task : TaskH) (fuel : Nat) (signal : Signal)
    (tr : List Call) (hk : w.Kill tr task signal = none)
    (hx : w.exitWithin (tr ++ [Call.taskKill task signal true]) task patience = true) :
    killLoop w task (fuel + 1) signal tr =
      (Outcome.returned (w.Delete (tr ++ [Call.taskKill task signal true]) task false),
        tr ++ [Call.taskKill task signal true, Call.taskDelete task false]) := by
  cases hd : w.Delete (tr ++ [Call.taskKill task signal true]) task false <;>
    simp [killLoop, hk, hx, hd]

/-- After a successful lookup and wait setup `killTask` is the `kill` loop. -/
theorem killTask_eq_killLoop (w : World) (fuel : Nat) (tr : List Call) (task : TaskH)
    (ht : w.Task tr = Except.ok task) (hw : w.Wait (tr ++ [Call.containerTask]) task = none) :
    killTask w fuel tr =
      killLoop w task fuel Signal.SIGTERM (tr ++ [Call.containerTask, Call.taskWait task]) := by
  simp [killTask, ht, hw]

/-- Terminal states of `killTask`: it returns `nil` after a failed lookup or
after a `Delete` that succeeded, and an error after a `Delete` that failed. -/
theorem killTask_terminal (w : World) (fuel : Nat) (r : Option Err) (out tr0 : List Call) :
    killTask w fuel tr0 = (Outcome.returned r, out) →
      (r = none →
        (∃ e, w.Task tr0 = Except.error e ∧ out = tr0 ++ [Call.containerTask]) ∨
        (∃ task mid, w.Task tr0 = Except.ok task ∧
          out = tr0 ++ mid ++ [Call.taskDelete task false] ∧
          w.Delete (tr0 ++ mid) task false = none)) ∧
      (r ≠ none →
        ∃ task mid, w.Task tr0 = Except.ok task ∧
          out = tr0 ++ mid ++ [Call.taskDelete task false] ∧
          w.Delete (tr0 ++ mid) task false ≠ none) := by
  intro h
  cases ht : w.Task tr0 with
  | error e =>
    simp [killTask, ht] at h
    obtain ⟨h1, h2⟩ := h
    subst h1
    subst h2
    simp
  | ok task =>
    cases hw : w.Wait (tr0 ++ [Call.containerTask]) task with
    | some err =>
      cases hd : w.Delete (tr0 ++ [Call.containerTask, Call.taskWait task]) task false with
      | none =>
        simp [killTask, ht, hw, hd] at h
        obtain ⟨h1, h2⟩ := h
        subst h1
        subst h2
        refine ⟨fun _ => Or.inr ⟨task, [Call.containerTask, Call.taskWait task], rfl, ?_, ?_⟩,
          fun hne => absurd rfl hne⟩
        · simp
        · exact hd
      | some derr =>
        simp [killTask, ht, hw, hd] at h
        obtain ⟨h1, h2⟩ := h
        subst h1
        subst h2
        refine ⟨fun hn => by simp at hn,
          fun _ => ⟨task, [Call.containerTask, Call.taskWait task], rfl, ?_, ?_⟩⟩
        · simp
        · simp [hd]
    | none =>
      rw [killTask_eq_killLoop w fuel tr0 task ht hw] at h
      obtain ⟨mid, h1, h2⟩ := killLoop_returned w task fuel _ _ r out h
      refine ⟨fun hn => Or.inr ⟨task, Call.containerTask :: Call.taskWait task :: mid, rfl,
          ?_, ?_⟩,
        fun hne => ⟨task, Call.containerTask :: Call.taskWait task :: mid, rfl, ?_, ?_⟩⟩
      · simp [h1]
      · have := h2.mp hn
        simpa using this
      · simp [h1]
      · intro hd
        apply hne
        apply h2.mpr
        simpa using hd

/-- What `stopChange.apply` hands back is what `killTask` hands back. -/
theorem stopChange_apply_eq (w : World) (fuel : Nat) (tr : List Call) :
    stopChange.apply w fuel tr =
      killTask w fuel (tr ++ [Call.EnableMaintainance w.ID "manual stop"]) := by
  unfold stopChange.apply
  simp only [logIfError_eq]
  generalize killTask w fuel (tr ++ [Call.EnableMaintainance w.ID "manual stop"]) = out
  rcases out with ⟨o, t⟩
  cases o with
  | returned r => cases r <;> rfl
  | panicked => rfl
  | unfinished => rfl

/-! ## Stop -/

/-- C5: when the task lookup fails, `stopChange.apply` returns `nil` (with any
fuel, whatever `EnableMaintainance` returned) after the lookup alone, and the
`killTask` it runs makes no `task.Wait`, `task.Kill` or `task.Delete` call. -/
theorem C5_stop_without_task (w : World) (fuel : Nat) (tr : List Call) (e : Err)
    (ht : w.Task (tr ++ [Call.EnableMaintainance w.ID "manual stop"]) = Except.error e) :
    stopChange.apply w fuel tr =
        (Outcome.returned none,
          tr ++ [Call.EnableMaintainance w.ID "manual stop", Call.containerTask]) ∧
      ∀ c ∈ newCalls (tr ++ [Call.EnableMaintainance w.ID "manual stop"])
          (killTask w fuel (tr ++ [Call.EnableMaintainance w.ID "manual stop"])),
        c.isWait = false ∧ c.isKill = false ∧ c.isTaskDelete = false := by
  have hk : killTask w fuel (tr ++ [Call.EnableMaintainance w.ID "manual stop"]) =
      (Outcome.returned none,
        tr ++ [Call.EnableMaintainance w.ID "manual stop"] ++ [Call.containerTask]) := by
    simp [killTask, ht]
  refine ⟨?_, ?_⟩
  · rw [stopChange_apply_eq, hk]; simp
  · rw [hk, newCalls_append]
    intro c hc
    simp only [List.mem_singleton] at hc
    subst hc
    exact ⟨rfl, rfl, rfl⟩

/-- The theorem `C5_stop_without_task` at the collaborators `noTask`. -/
theorem C5_stop_without_task_witness :
    stopChange.apply noTask 0 [] =
      (Outcome.returned none,
        [Call.EnableMaintainance "web1" "manual stop", Call.containerTask]) :=
  (C5_stop_without_task noTask 0 [] "no running task found" rfl).1

/-- C4: when lookup, wait setup and the SIGTERM send succeed and the exit
notification arrives within the window, `stopChange.apply` (with any fuel of at
least one round) makes exactly the calls `EnableMaintainance`, task lookup,
`Wait`, one `Kill` with SIGTERM and `WithKillAll`, one `Delete`, and returns the
result of that `Delete`: `nil` when it succeeds, its error otherwise. No SIGKILL
is sent. -/
theorem C4_stop_exit_in_window (w : World) (fuel : Nat) (tr : List Call) (task : TaskH)
    (ht : w.Task (tr ++ [Call.EnableMaintainance w.ID "manual stop"]) = Except.ok task)
    (hw : w.Wait (tr ++ [Call.EnableMaintainance w.ID "manual stop", Call.containerTask]) task
      = none)
    (hk : w.Kill (tr ++ [Call.EnableMaintainance w.ID "manual stop", Call.containerTask,
      Call.taskWait task]) task Signal.SIGTERM = none)
    (hx : w.exitWithin (tr ++ [Call.EnableMaintainance w.ID "manual stop", Call.containerTask,
      Call.taskWait task, Call.taskKill task Signal.SIGTERM true]) task patience = true) :
    stopChange.apply w (fuel + 1) tr =
        (Outcome.returned (w.Delete (tr ++ [Call.EnableMaintainance w.ID "manual stop",
            Call.containerTask, Call.taskWait task, Call.taskKill task Signal.SIGTERM true])
            task false),
          tr ++ [Call.EnableMaintainance w.ID "manual stop", Call.containerTask,
            Call.taskWait task, Call.taskKill task Signal.SIGTERM true,
            Call.taskDelete task false]) ∧
      killSignals (newCalls tr (stopChange.apply w (fuel + 1) tr)) = [Signal.SIGTERM] ∧
      (newCalls tr (stopChange.apply w (fuel + 1) tr)).countP Call.isTaskDelete = 1 := by
  have key : stopChange.apply w (fuel + 1) tr =
      (Outcome.returned (w.Delete (tr ++ [Call.EnableMaintainance w.ID "manual stop",
          Call.containerTask, Call.taskWait task, Call.taskKill task Signal.SIGTERM true])
          task false),
        tr ++ [Call.EnableMaintainance w.ID "manual stop", Call.containerTask,
          Call.taskWait task, Call.taskKill task Signal.SIGTERM true,
          Call.taskDelete task false]) := by
    rw [stopChange_apply_eq]
    cases hd : w.Delete (tr ++ [Call.EnableMaintainance w.ID "manual stop",
        Call.containerTask, Call.taskWait task, Call.taskKill task Signal.SIGTERM true])
        task false <;>
      simp [killTask, killLoop, ht, hw, hk, hx, hd]
  refine ⟨key, ?_, ?_⟩
  · rw [key, newCalls_append]; rfl
  · rw [key, newCalls_append]; rfl

/-- The theorem `C4_stop_exit_in_window` at the collaborators `calm`. -/
theorem C4_stop_exit_in_window_witness :
    stopChange.apply calm 1 [] =
      (Outcome.returned none,
        [Call.EnableMaintainance "web1" "manual stop", Call.containerTask, Call.taskWait 1,
          Call.taskKill 1 Signal.SIGTERM true, Call.taskDelete 1 false]) :=
  (C4_stop_exit_in_window calm 0 [] 1 rfl rfl rfl rfl).1

/-! ## The graceful terminator -/

/-- C1 (amended): when lookup and wait setup succeed and the first `n + 1`
windows expire (so the task ignores SIGTERM for the full first window), and then
either the send of SIGKILL fails or the exit arrives within the next window,
`killTask` returns after exactly `n + 2` calls of `Kill`, SIGTERM first and
SIGKILL `n + 1` times, followed by one `Delete`. SIGKILL is sent once for every
expired window; for `n = 0` that is exactly one escalation. -/
theorem C1_sigkill_after_every_expired_window (w : World) (fuel n : Nat) (tr : List Call)
    (task : TaskH)
    (ht : w.Task tr = Except.ok task)
    (hw : w.Wait (tr ++ [Call.containerTask]) task = none)
    (hexp : windowsExpire w task Signal.SIGTERM
      (tr ++ [Call.containerTask, Call.taskWait task]) (n + 1))
    (hend : w.Kill (tr ++ [Call.containerTask, Call.taskWait task] ++
        sends task Signal.SIGTERM (n + 1)) task Signal.SIGKILL ≠ none ∨
      w.exitWithin (tr ++ [Call.containerTask, Call.taskWait task] ++
        sends task Signal.SIGTERM (n + 2)) task patience = true) :
    (∃ r, (killTask w (fuel + n + 2) tr).1 = Outcome.returned r) ∧
      (killTask w (fuel + n + 2) tr).2 =
        tr ++ [Call.containerTask, Call.taskWait task] ++ sends task Signal.SIGTERM (n + 2) ++
          [Call.taskDelete task false] ∧
      killSignals (newCalls tr (killTask w (fuel + n + 2) tr)) =
        Signal.SIGTERM :: List.replicate (n + 1) Signal.SIGKILL := by
  have hloop : killTask w (fuel + n + 2) tr =
      killLoop w task (fuel + 1) Signal.SIGKILL
        (tr ++ [Call.containerTask, Call.taskWait task] ++ sends task Signal.SIGTERM (n + 1)) := by
    rw [killTask_eq_killLoop w _ tr task ht hw, show fuel + n + 2 = (n + 1) + (fuel + 1) by omega,
      killLoop_windowsExpire w task (fuel + 1) (n + 1) _ _ hexp]
    rfl
  have hshape : ∃ r, killTask w (fuel + n + 2) tr =
      (Outcome.returned r,
        tr ++ [Call.containerTask, Call.taskWait task] ++ sends task Signal.SIGTERM (n + 2) ++
          [Call.taskDelete task false]) := by
    rw [hloop, sends_succ task Signal.SIGTERM (n + 1)]
    cases hk : w.Kill (tr ++ [Call.containerTask, Call.taskWait task] ++
        sends task Signal.SIGTERM (n + 1)) task Signal.SIGKILL with
    | some e =>
      rw [killLoop_send_fails w task fuel _ _ e hk]
      exact ⟨_, Prod.ext rfl (by simp [signalAt])⟩
    | none =>
      rcases hend with h | h
      · exact absurd hk h
      · rw [sends_succ task Signal.SIGTERM (n + 1)] at h
        simp only [signalAt, ← List.append_assoc] at h
        rw [killLoop_exit w task fuel _ _ hk h]
        exact ⟨_, Prod.ext rfl (by simp [signalAt])⟩
  obtain ⟨r, hr⟩ := hshape
  refine ⟨⟨r, by rw [hr]⟩, by rw [hr], ?_⟩
  rw [hr]
  simp only [List.append_assoc, newCalls_append]
  simp only [killSignals_append, killSignals_sends]
  simp [killSignals, escalation, escalation_SIGKILL, List.replicate_succ]

/-- The theorem `C1_sigkill_after_every_expired_window` at the collaborators
`sigkillFails` with one expired window: two `Kill` calls. -/
theorem C1_sigkill_after_every_expired_window_witness :
    (∃ r, (killTask sigkillFails 2 []).1 = Outcome.returned r) ∧
      (killTask sigkillFails 2 []).2 =
        [] ++ [Call.containerTask, Call.taskWait 1] ++ sends 1 Signal.SIGTERM 2 ++
          [Call.taskDelete 1 false] ∧
      killSignals (newCalls [] (killTask sigkillFails 2 [])) =
        Signal.SIGTERM :: List.replicate 1 Signal.SIGKILL :=
  C1_sigkill_after_every_expired_window sigkillFails 0 0 [] 1 rfl rfl
    (fun i hi => by
      have h0 : i = 0 := by omega
      subst h0
      exact ⟨rfl, rfl⟩)
    (Or.inl (by decide))

/-- C1 (as stated, refuted): on the collaborators `stubborn` the task `1` does not
exit within the window after SIGTERM, nor within the window after the first
SIGKILL; `killTask` sends a second SIGKILL and returns after three `Kill` calls,
more than two. -/
theorem C1_counterexample_three_kills :
    stubborn.Task [] = Except.ok 1 ∧
      stubborn.exitWithin
        [Call.containerTask, Call.taskWait 1, Call.taskKill 1 Signal.SIGTERM true] 1 patience
        = false ∧
      killTask stubborn 3 [] =
        (Outcome.returned none,
          [Call.containerTask, Call.taskWait 1, Call.taskKill 1 Signal.SIGTERM true,
            Call.taskKill 1 Signal.SIGKILL true, Call.taskKill 1 Signal.SIGKILL true,
            Call.taskDelete 1 false]) ∧
      ¬ ((newCalls [] (killTask stubborn 3 [])).countP Call.isKill ≤ 2) := by
  refine ⟨rfl, rfl, rfl, ?_⟩
  decide

/-- C6: the fallback delete of `killTask`, for every fuel.
(1) When the wait setup fails with `e`, `killTask` makes one `Delete` and
returns: `nil` when the `Delete` succeeds, `e` otherwise.
(2) When, after `n` expired windows, the send of the current signal (SIGTERM for
`n = 0`, SIGKILL afterwards) fails with `e`, `killTask` makes one `Delete` and
returns: `nil` when the `Delete` succeeds, `e` otherwise.
(3) `stopChange.apply` with a failing wait setup and a succeeding fallback
delete returns `nil`. -/
theorem C6_fallback_delete (w : World) (fuel n : Nat) (tr : List Call) (task : TaskH) (e : Err) :
    (w.Task tr = Except.ok task → w.Wait (tr ++ [Call.containerTask]) task = some e →
      killTask w fuel tr =
        (Outcome.returned
            ((w.Delete (tr ++ [Call.containerTask, Call.taskWait task]) task false).map
              (fun _ => e)),
          tr ++ [Call.containerTask, Call.taskWait task, Call.taskDelete task false])) ∧
    (w.Task tr = Except.ok task → w.Wait (tr ++ [Call.containerTask]) task = none →
      windowsExpire w task Signal.SIGTERM (tr ++ [Call.containerTask, Call.taskWait task]) n →
      w.Kill (tr ++ [Call.containerTask, Call.taskWait task] ++ sends task Signal.SIGTERM n)
        task (signalAt Signal.SIGTERM n) = some e →
      killTask w (fuel + n + 1) tr =
        (Outcome.returned
            ((w.Delete (tr ++ [Call.containerTask, Call.taskWait task] ++
              sends task Signal.SIGTERM (n + 1)) task false).map (fun _ => e)),
          tr ++ [Call.containerTask, Call.taskWait task] ++ sends task Signal.SIGTERM (n + 1) ++
            [Call.taskDelete task false])) ∧
    (w.Task (tr ++ [Call.EnableMaintainance w.ID "manual stop"]) = Except.ok task →
      w.Wait (tr ++ [Call.EnableMaintainance w.ID "manual stop", Call.containerTask]) task
        = some e →
      w.Delete (tr ++ [Call.EnableMaintainance w.ID "manual stop", Call.containerTask,
        Call.taskWait task]) task false = none →
      stopChange.apply w fuel tr =
        (Outcome.returned none,
          tr ++ [Call.EnableMaintainance w.ID "manual stop", Call.containerTask,
            Call.taskWait task, Call.taskDelete task false])) := by
  refine ⟨?_, ?_, ?_⟩
  · intro ht hw
    cases hd : w.Delete (tr ++ [Call.containerTask, Call.taskWait task]) task false <;>
      simp [killTask, ht, hw, hd]
  · intro ht hw hexp hk
    rw [killTask_eq_killLoop w _ tr task ht hw, show fuel + n + 1 = n + (fuel + 1) by omega,
      killLoop_windowsExpire w task (fuel + 1) n _ _ hexp,
      killLoop_send_fails w task fuel _ _ e hk, sends_succ]
    simp
  · intro ht hw hd
    rw [stopChange_apply_eq]
    simp [killTask, ht, hw, hd]

/-- The theorem `C6_fallback_delete` at concrete collaborators: a failing wait
setup (`waitFails`), a failing SIGKILL after one expired window
(`sigkillFails`), and Stop on `waitFails`. -/
theorem C6_fallback_delete_witness :
    killTask waitFails 0 [] =
        (Outcome.returned none,
          [Call.containerTask, Call.taskWait 1, Call.taskDelete 1 false]) ∧
      killTask sigkillFails 2 [] =
        (Outcome.returned none,
          [Call.containerTask, Call.taskWait 1, Call.taskKill 1 Signal.SIGTERM true,
            Call.taskKill 1 Signal.SIGKILL true, Call.taskDelete 1 false]) ∧
      stopChange.apply waitFails 0 [] =
        (Outcome.returned none,
          [Call.EnableMaintainance "web1" "manual stop", Call.containerTask, Call.taskWait 1,
            Call.taskDelete 1 false]) :=
  ⟨(C6_fallback_delete waitFails 0 0 [] 1 "wait: unavailable").1 rfl rfl,
    (C6_fallback_delete sigkillFails 0 1 [] 1 "kill: no such process").2.1 rfl rfl
      (fun i hi => by
        have h0 : i = 0 := by omega
        subst h0
        exact ⟨rfl, rfl⟩)
      rfl,
    (C6_fallback_delete waitFails 0 0 [] 1 "wait: unavailable").2.2 rfl rfl rfl⟩

/-- C10 (amended): terminal states of `killTask`. Whenever `killTask` returns `nil`, either
the task lookup failed and the lookup is the only call made, or the last call
made is a `task.Delete` of the task found, and that `Delete` succeeded. Whenever
it returns an error, the last call made is a `task.Delete` of the task found,
and that `Delete` failed. The same holds for `stopChange.apply`, whose calls
are `EnableMaintainance` followed by those of `killTask`: a Stop that returns
`nil` has either seen the lookup fail, which says nothing on whether a task
remains, or has deleted the task found. -/
theorem C10_terminal_states (w : World) (fuel : Nat) (tr : List Call) (r : Option Err)
    (out : List Call) :
    (killTask w fuel tr = (Outcome.returned r, out) →
      (r = none →
        (∃ e, w.Task tr = Except.error e ∧ out = tr ++ [Call.containerTask]) ∨
        (∃ task mid, w.Task tr = Except.ok task ∧
          out = tr ++ mid ++ [Call.taskDelete task false] ∧
          w.Delete (tr ++ mid) task false = none)) ∧
      (r ≠ none →
        ∃ task mid, w.Task tr = Except.ok task ∧
          out = tr ++ mid ++ [Call.taskDelete task false] ∧
          w.Delete (tr ++ mid) task false ≠ none)) ∧
    (stopChange.apply w fuel tr = (Outcome.returned r, out) →
      (r = none →
        (∃ e, w.Task (tr ++ [Call.EnableMaintainance w.ID "manual stop"]) = Except.error e ∧
          out = tr ++ [Call.EnableMaintainance w.ID "manual stop", Call.containerTask]) ∨
        (∃ task mid, w.Task (tr ++ [Call.EnableMaintainance w.ID "manual stop"]) = Except.ok task ∧
          out = tr ++ mid ++ [Call.taskDelete task false] ∧
          w.Delete (tr ++ mid) task false = none)) ∧
      (r ≠ none →
        ∃ task mid, w.Task (tr ++ [Call.EnableMaintainance w.ID "manual stop"]) = Except.ok task ∧
          out = tr ++ mid ++ [Call.taskDelete task false] ∧
          w.Delete (tr ++ mid) task false ≠ none)) := by
  refine ⟨killTask_terminal w fuel r out tr, ?_⟩
  intro h
  rw [stopChange_apply_eq] at h
  obtain ⟨h1, h2⟩ := killTask_terminal w fuel r out _ h
  refine ⟨fun hn => ?_, fun hne => ?_⟩
  · rcases h1 hn with ⟨e, he, ho⟩ | ⟨task, mid, hk, ho, hd⟩
    · exact Or.inl ⟨e, he, by simp [ho]⟩
    · exact Or.inr ⟨task, Call.EnableMaintainance w.ID "manual stop" :: mid, hk, by simp [ho],
        by simpa using hd⟩
  · obtain ⟨task, mid, hk, ho, hd⟩ := h2 hne
    exact ⟨task, Call.EnableMaintainance w.ID "manual stop" :: mid, hk, by simp [ho],
      by simpa using hd⟩

/-- The theorem `C10_terminal_states` at the collaborators `killFails`, where
`killTask` returns the error of the failed `Kill` after a failed `Delete`. -/
theorem C10_terminal_states_witness :
    ∃ task mid, killFails.Task [] = Except.ok task ∧
      [Call.containerTask, Call.taskWait 1, Call.taskKill 1 Signal.SIGTERM true,
        Call.taskDelete 1 false] = [] ++ mid ++ [Call.taskDelete task false] ∧
      killFails.Delete ([] ++ mid) task false ≠ none :=
  ((C10_terminal_states killFails 1 [] (some "kill: permission denied")
    [Call.containerTask, Call.taskWait 1, Call.taskKill 1 Signal.SIGTERM true,
      Call.taskDelete 1 false]).1 rfl).2 (by decide)

/-- C10 (as stated, refuted): on the collaborators `flakyLookup` the lookup of
`stopChange.apply` fails, Stop returns `nil` after `EnableMaintainance` and the
lookup alone, with no `task.Delete` call, and the next lookup finds the task `1`:
the Stop succeeded and the task resource remains. -/
theorem C10_counterexample_stop_succeeds_task_remains :
    stopChange.apply flakyLookup 0 [] =
        (Outcome.returned none,
          [Call.EnableMaintainance "web1" "manual stop", Call.containerTask]) ∧
      (newCalls [] (stopChange.apply flakyLookup 0 [])).countP Call.isTaskDelete = 0 ∧
      flakyLookup.Task (stopChange.apply flakyLookup 0 []).2 = Except.ok 1 := by
  have hrun : stopChange.apply flakyLookup 0 [] =
      (Outcome.returned none,
        [Call.EnableMaintainance "web1" "manual stop", Call.containerTask]) := by
    simp [stopChange.apply, killTask, flakyLookup, calm]
  refine ⟨hrun, ?_, ?_⟩
  · rw [hrun]; rfl
  · rw [hrun]; rfl

/-! ## Start -/

/-- The one call of `getConfig` is `container.Info`. -/
theorem getConfig_trace (w : World) (tr : List Call) :
    getConfig w tr = ((getConfig w tr).1, tr ++ [Call.containerInfo]) := by
  unfold getConfig
  dsimp only
  split
  · rfl
  · split <;> rfl

/-- The `range` loop makes one `Register` call per entry, in the order of the visit. -/
theorem registerServices_eq (w : World) (id ip : String) (services : List (String × Service)) :
    ∀ tr : List Call, registerServices w id ip services tr =
      tr ++ services.map (fun p => Call.Register id p.1 ip p.2) := by
  induction services with
  | nil => intro tr; simp [registerServices]
  | cons p rest ih =>
    intro tr
    obtain ⟨name, srv⟩ := p
    simp [registerServices, ih]

/-- The trace of `startChange.apply` goes on from the trace its `killTask` left. -/
theorem startChange_apply_extends (w : World) (fuel : Nat) (tr tr0 : List Call)
    (r0 : Option Err) (hk : killTask w fuel tr = (Outcome.returned r0, tr0)) :
    ∃ rest, (startChange.apply w fuel tr).2 = tr0 ++ rest := by
  unfold startChange.apply
  rw [hk]
  dsimp only
  rw [getConfig_trace w tr0]
  cases (getConfig w tr0).1 with
  | error err => exact ⟨_, rfl⟩
  | panic => exact ⟨_, rfl⟩
  | ok config =>
    dsimp only
    cases w.NewTask (tr0 ++ [Call.containerInfo]) with
    | error err => exact ⟨[Call.containerInfo, Call.containerNewTask], by simp⟩
    | ok task =>
      dsimp only
      cases w.networks config.Network with
      | none => exact ⟨[Call.containerInfo, Call.containerNewTask], by simp⟩
      | some net =>
        dsimp only
        cases net.Create (tr0 ++ [Call.containerInfo] ++ [Call.containerNewTask]) task with
        | error err =>
          exact ⟨[Call.containerInfo, Call.containerNewTask,
            Call.networkCreate config.Network task, Call.taskDelete task true], by simp⟩
        | ok ip =>
          dsimp only
          simp only [registerServices_eq, logIfError_eq]
          split <;> split <;> simp

/-- A list that splits at an element absent from the first part splits after it. -/
theorem append_of_not_mem {α : Type} (x : α) (l1 : List α) :
    ∀ (l2 a b : List α), l1 ++ l2 = a ++ x :: b → x ∉ l1 → ∃ c, a = l1 ++ c := by
  induction l1 with
  | nil => intro l2 a b _ _; exact ⟨a, rfl⟩
  | cons y rest ih =>
    intro l2 a b h hx
    cases a with
    | nil =>
      simp only [List.cons_append, List.nil_append, List.cons.injEq] at h
      exact absurd (List.mem_cons.mpr (Or.inl h.1.symm)) hx
    | cons z a1 =>
      simp only [List.cons_append, List.cons.injEq] at h
      obtain ⟨c, hc⟩ := ih l2 a1 b h.2 (fun hmem => hx (List.mem_cons_of_mem _ hmem))
      exact ⟨c, by rw [h.1, hc]; rfl⟩

/-- C2 (amended): when the task lookup of the first `killTask` of
`startChange.apply` returns the task `task` and that `killTask` returns `nil`,
every `NewTask` call of the run comes after a `Delete` of `task` that
succeeded. -/
theorem C2_new_task_after_delete_when_kill_succeeds (w : World) (fuel : Nat)
    (tr tr0 : List Call) (task : TaskH)
    (ht : w.Task tr = Except.ok task)
    (hk : killTask w fuel tr = (Outcome.returned none, tr0)) :
    newTaskOnlyAfterDelete w task tr (startChange.apply w fuel tr).2 := by
  obtain ⟨rest, hrest⟩ := startChange_apply_extends w fuel tr tr0 none hk
  obtain ⟨ks, hks, hall⟩ := killTask_calls w fuel tr
  rw [hk] at hks
  simp only at hks
  rcases (killTask_terminal w fuel none tr0 tr hk).1 rfl with
    ⟨e, he, _⟩ | ⟨task1, mid, ht1, hout, hdel⟩
  · rw [ht] at he; cases he
  · rw [ht] at ht1
    cases ht1
    have hksmid : ks = mid ++ [Call.taskDelete task false] := by
      have h := hks.symm.trans hout
      rw [List.append_assoc] at h
      exact List.append_cancel_left h
    have hnot : Call.containerNewTask ∉ mid ++ [Call.taskDelete task false] := by
      intro hmem
      have h := hall _ (hksmid ▸ hmem)
      simp [Call.ofKillTask] at h
    intro a b hab
    rw [hrest, hout, List.append_assoc, List.append_assoc, List.append_assoc] at hab
    have hab1 := List.append_cancel_left hab
    rw [← List.append_assoc] at hab1
    obtain ⟨c, hc⟩ := append_of_not_mem _ _ _ _ _ hab1 hnot
    exact ⟨mid, c, by rw [hc]; simp, hdel⟩

/-- The theorem `C2_new_task_after_delete_when_kill_succeeds` at the
collaborators `calm`, where the task `1` exits after SIGTERM and is deleted. -/
theorem C2_new_task_after_delete_when_kill_succeeds_witness :
    newTaskOnlyAfterDelete calm 1 [] (startChange.apply calm 1 []).2 :=
  C2_new_task_after_delete_when_kill_succeeds calm 1 []
    [Call.containerTask, Call.taskWait 1, Call.taskKill 1 Signal.SIGTERM true,
      Call.taskDelete 1 false] 1 rfl rfl

/-- C2 (as stated, refuted): on the collaborators `killFails` the container has
the task `1`, the `Kill` fails and so does the `Delete`; `startChange.apply`
drops the error of `killTask` and calls `NewTask` with no successful `Delete`
before it. -/
theorem C2_counterexample_new_task_without_delete :
    killFails.Task [] = Except.ok 1 ∧
      killTask killFails 1 [] =
        (Outcome.returned (some "kill: permission denied"),
          [Call.containerTask, Call.taskWait 1, Call.taskKill 1 Signal.SIGTERM true,
            Call.taskDelete 1 false]) ∧
      startChange.apply killFails 1 [] =
        (Outcome.returned none,
          [Call.containerTask, Call.taskWait 1, Call.taskKill 1 Signal.SIGTERM true,
            Call.taskDelete 1 false, Call.containerInfo, Call.containerNewTask,
            Call.networkCreate "bridge0" 2, Call.Register "web1" "http" "10.0.0.2" "def",
            Call.taskStart 2, Call.DisableMaintainance "web1"]) ∧
      ¬ newTaskOnlyAfterDelete killFails 1 [] (startChange.apply killFails 1 []).2 := by
  have hrun : startChange.apply killFails 1 [] =
      (Outcome.returned none,
        [Call.containerTask, Call.taskWait 1, Call.taskKill 1 Signal.SIGTERM true,
          Call.taskDelete 1 false, Call.containerInfo, Call.containerNewTask,
          Call.networkCreate "bridge0" 2, Call.Register "web1" "http" "10.0.0.2" "def",
          Call.taskStart 2, Call.DisableMaintainance "web1"]) := by
    simp [startChange.apply, killTask, killLoop, getConfig, registerServices, killFails, calm,
      web1, bridge0]
  refine ⟨rfl, rfl, hrun, ?_⟩
  intro h
  rw [hrun] at h
  obtain ⟨pre, post, _, hd⟩ := h
    [Call.containerTask, Call.taskWait 1, Call.taskKill 1 Signal.SIGTERM true,
      Call.taskDelete 1 false, Call.containerInfo]
    [Call.networkCreate "bridge0" 2, Call.Register "web1" "http" "10.0.0.2" "def",
      Call.taskStart 2, Call.DisableMaintainance "web1"] rfl
  simp [killFails] at hd

/-- The calls of `killTask` are no `task.Delete` with `WithProcessKill`, no
`Register`, no `task.Start` and no `DisableMaintainance`. -/
theorem ofKillTask_not_start_call (c : Call) (h : c.ofKillTask = true) :
    c.isRegister = false ∧ c.isStart = false ∧ c.isDisableMaintainance = false ∧
      ∀ task, c ≠ Call.taskDelete task true := by
  cases c with
  | taskDelete t k =>
    cases k <;> simp_all [Call.ofKillTask, Call.isRegister, Call.isStart,
      Call.isDisableMaintainance]
  | _ =>
    simp_all [Call.ofKillTask, Call.isRegister, Call.isStart, Call.isDisableMaintainance]

/-- C3: when the first `killTask` has returned (whatever it returned), the
configuration decodes, `NewTask` succeeds, the binder of the configured network
exists and its `Create` fails with `e`, `startChange.apply` makes exactly the
calls `Info`, `NewTask`, `Create`, `task.Delete` with `WithProcessKill` on the new
task, and returns `e`, whatever that `Delete` returns. The run makes that
`Delete` call once and no `Register`, `task.Start` or `DisableMaintainance` call. -/
theorem C3_create_fails (w : World) (fuel : Nat) (tr tr0 : List Call) (r0 : Option Err)
    (config : Container) (task : TaskH) (net : Network) (e : Err)
    (hk : killTask w fuel tr = (Outcome.returned r0, tr0))
    (hc : (getConfig w tr0).1 = ConfigResult.ok config)
    (hn : w.NewTask (tr0 ++ [Call.containerInfo]) = Except.ok task)
    (hnet : w.networks config.Network = some net)
    (hcreate : net.Create (tr0 ++ [Call.containerInfo, Call.containerNewTask]) task
      = Except.error e) :
    startChange.apply w fuel tr =
        (Outcome.returned (some e),
          tr0 ++ [Call.containerInfo, Call.containerNewTask,
            Call.networkCreate config.Network task, Call.taskDelete task true]) ∧
      (newCalls tr (startChange.apply w fuel tr)).count (Call.taskDelete task true) = 1 ∧
      ∀ c ∈ newCalls tr (startChange.apply w fuel tr),
        c.isRegister = false ∧ c.isStart = false ∧ c.isDisableMaintainance = false := by
  have hg : getConfig w tr0 = (ConfigResult.ok config, tr0 ++ [Call.containerInfo]) := by
    rw [getConfig_trace, hc]
  have key : startChange.apply w fuel tr =
      (Outcome.returned (some e),
        tr0 ++ [Call.containerInfo, Call.containerNewTask,
          Call.networkCreate config.Network task, Call.taskDelete task true]) := by
    simp [startChange.apply, hk, hg, hn, hnet, hcreate]
  obtain ⟨ks, hks, hall⟩ := killTask_calls w fuel tr
  rw [hk] at hks
  simp only at hks
  subst hks
  refine ⟨key, ?_, ?_⟩
  · rw [key, List.append_assoc, newCalls_append, List.count_append,
      List.count_eq_zero_of_not_mem (fun hmem =>
        (ofKillTask_not_start_call _ (hall _ hmem)).2.2.2 task rfl)]
    simp
  · rw [key, List.append_assoc, newCalls_append]
    intro c hc
    rcases List.mem_append.mp hc with h | h
    · exact ⟨(ofKillTask_not_start_call c (hall c h)).1,
        (ofKillTask_not_start_call c (hall c h)).2.1,
        (ofKillTask_not_start_call c (hall c h)).2.2.1⟩
    · simp only [List.mem_cons, List.mem_singleton, List.not_mem_nil, or_false] at h
      rcases h with h | h | h | h <;> subst h <;> exact ⟨rfl, rfl, rfl⟩

/-- The theorem `C3_create_fails` at the collaborators `createFails`, where the
`Delete` of the new task fails as well. -/
theorem C3_create_fails_witness :
    startChange.apply createFails 1 [] =
      (Outcome.returned (some "bridge0: no address left"),
        [Call.containerTask, Call.taskWait 1, Call.taskKill 1 Signal.SIGTERM true,
            Call.taskDelete 1 false] ++
          [Call.containerInfo, Call.containerNewTask, Call.networkCreate web1.Network 2,
            Call.taskDelete 2 true]) :=
  (C3_create_fails createFails 1 []
    [Call.containerTask, Call.taskWait 1, Call.taskKill 1 Signal.SIGTERM true,
      Call.taskDelete 1 false] none web1 2 brokenBridge "bridge0: no address left"
    rfl rfl rfl rfl rfl).1

/-- C7: when the first `killTask` has returned, the configuration decodes,
`NewTask` succeeds and the binder's `Create` returns the empty address, then for
every list of services `startChange.apply` makes no `Register` call and exactly
one `task.Start` call, and it returns the result of `task.Start`: its error when
it fails, `nil` otherwise (whatever `DisableMaintainance` returns). -/
theorem C7_empty_address (w : World) (fuel : Nat) (tr tr0 : List Call) (r0 : Option Err)
    (config : Container) (task : TaskH) (net : Network)
    (hk : killTask w fuel tr = (Outcome.returned r0, tr0))
    (hc : (getConfig w tr0).1 = ConfigResult.ok config)
    (hn : w.NewTask (tr0 ++ [Call.containerInfo]) = Except.ok task)
    (hnet : w.networks config.Network = some net)
    (hcreate : net.Create (tr0 ++ [Call.containerInfo, Call.containerNewTask]) task
      = Except.ok "") :
    startChange.apply w fuel tr =
        (Outcome.returned (w.Start (tr0 ++ [Call.containerInfo, Call.containerNewTask,
            Call.networkCreate config.Network task]) task),
          tr0 ++ [Call.containerInfo, Call.containerNewTask,
            Call.networkCreate config.Network task, Call.taskStart task] ++
            (match w.Start (tr0 ++ [Call.containerInfo, Call.containerNewTask,
                Call.networkCreate config.Network task]) task with
              | none => [Call.DisableMaintainance config.ID]
              | some _ => [])) ∧
      (newCalls tr (startChange.apply w fuel tr)).countP Call.isRegister = 0 ∧
      (newCalls tr (startChange.apply w fuel tr)).countP Call.isStart = 1 := by
  have hg : getConfig w tr0 = (ConfigResult.ok config, tr0 ++ [Call.containerInfo]) := by
    rw [getConfig_trace, hc]
  have key : startChange.apply w fuel tr =
      (Outcome.returned (w.Start (tr0 ++ [Call.containerInfo, Call.containerNewTask,
          Call.networkCreate config.Network task]) task),
        tr0 ++ [Call.containerInfo, Call.containerNewTask,
          Call.networkCreate config.Network task, Call.taskStart task] ++
          (match w.Start (tr0 ++ [Call.containerInfo, Call.containerNewTask,
              Call.networkCreate config.Network task]) task with
            | none => [Call.DisableMaintainance config.ID]
            | some _ => [])) := by
    cases hs : w.Start (tr0 ++ [Call.containerInfo, Call.containerNewTask,
        Call.networkCreate config.Network task]) task <;>
      simp [startChange.apply, hk, hg, hn, hnet, hcreate, hs]
  obtain ⟨ks, hks, hall⟩ := killTask_calls w fuel tr
  rw [hk] at hks
  simp only at hks
  subst hks
  have hreg : ks.countP Call.isRegister = 0 :=
    List.countP_eq_zero.mpr (fun c hc => by
      simp [(ofKillTask_not_start_call c (hall c hc)).1])
  have hstart : ks.countP Call.isStart = 0 :=
    List.countP_eq_zero.mpr (fun c hc => by
      simp [(ofKillTask_not_start_call c (hall c hc)).2.1])
  refine ⟨key, ?_, ?_⟩
  · rw [key]
    simp only [List.append_assoc, newCalls_append, List.countP_append, hreg]
    cases w.Start (tr ++ (ks ++ [Call.containerInfo, Call.containerNewTask,
      Call.networkCreate config.Network task])) task <;> rfl
  · rw [key]
    simp only [List.append_assoc, newCalls_append, List.countP_append, hstart]
    cases w.Start (tr ++ (ks ++ [Call.containerInfo, Call.containerNewTask,
      Call.networkCreate config.Network task])) task <;> rfl

/-- The theorem `C7_empty_address` at the collaborators `emptyAddress`, whose
configuration lists the service `http`. -/
theorem C7_empty_address_witness :
    (newCalls [] (startChange.apply emptyAddress 1 [])).countP Call.isRegister = 0 ∧
      (newCalls [] (startChange.apply emptyAddress 1 [])).countP Call.isStart = 1 :=
  (C7_empty_address emptyAddress 1 []
    [Call.containerTask, Call.taskWait 1, Call.taskKill 1 Signal.SIGTERM true,
      Call.taskDelete 1 false] none web1 2 hostNetwork rfl rfl rfl rfl rfl).2

/-- The answers of `Register` do not reach the `kill` loop. -/
theorem killLoop_withRegister (w : World)
    (answer : List Call → String → String → String → Service → Option Err) (task : TaskH)
    (fuel : Nat) :
    ∀ (signal : Signal) (tr : List Call),
      killLoop (w.withRegister answer) task fuel signal tr = killLoop w task fuel signal tr := by
  induction fuel with
  | zero => intro signal tr; rfl
  | succ n ih =>
    intro signal tr
    simp only [killLoop, ih]
    rfl

/-- The answers of `Register` do not reach `startChange.apply`. -/
theorem startChange_apply_withRegister (w : World)
    (answer : List Call → String → String → String → Service → Option Err) (fuel : Nat)
    (tr : List Call) :
    startChange.apply (w.withRegister answer) fuel tr = startChange.apply w fuel tr := by
  have hkill : ∀ t, killTask (w.withRegister answer) fuel t = killTask w fuel t := by
    intro t
    simp only [killTask, killLoop_withRegister]
    rfl
  have hconf : ∀ t, getConfig (w.withRegister answer) t = getConfig w t := fun _ => rfl
  simp only [startChange.apply, hkill, hconf, registerServices_eq, logIfError_eq]
  rfl

/-- With pairwise different names, each entry of the services has exactly one
`Register` call among those of the `range` loop. -/
theorem count_register_calls (id ip : String) (services : List (String × Service))
    (hnodup : (services.map Prod.fst).Nodup) (p : String × Service) (hp : p ∈ services) :
    (services.map (fun q => Call.Register id q.1 ip q.2)).count (Call.Register id p.1 ip p.2)
      = 1 := by
  have hcalls : (services.map (fun q => Call.Register id q.1 ip q.2)).Nodup := by
    apply List.Nodup.of_map (fun c => match c with
      | Call.Register _ name _ _ => name
      | _ => "")
    simpa [List.map_map, Function.comp_def] using hnodup
  exact List.count_eq_one_of_mem hcalls (List.mem_map.mpr ⟨p, hp, rfl⟩)

/-- C8: when the first `killTask` has returned, the configuration decodes,
`NewTask` succeeds and the binder's `Create` returns the non-empty address `ip`,
`startChange.apply` calls `Register(config.ID, name, ip, srv)` for the entries
`(name, srv)` of `config.Services` in the order of the visit, between `Create`
and `task.Start`, and these are all its `Register` calls; with pairwise
different names that is exactly one call per entry. It then returns the result
of `task.Start`. Replacing the answers of `Register` by any others changes
neither the calls nor the result. -/
theorem C8_register_every_service (w : World) (fuel : Nat) (tr tr0 : List Call)
    (r0 : Option Err) (config : Container) (task : TaskH) (net : Network) (ip : String)
    (hk : killTask w fuel tr = (Outcome.returned r0, tr0))
    (hc : (getConfig w tr0).1 = ConfigResult.ok config)
    (hn : w.NewTask (tr0 ++ [Call.containerInfo]) = Except.ok task)
    (hnet : w.networks config.Network = some net)
    (hcreate : net.Create (tr0 ++ [Call.containerInfo, Call.containerNewTask]) task
      = Except.ok ip)
    (hip : ip ≠ "") :
    startChange.apply w fuel tr =
        (Outcome.returned (w.Start (tr0 ++ [Call.containerInfo, Call.containerNewTask,
            Call.networkCreate config.Network task] ++
            config.Services.map (fun p => Call.Register config.ID p.1 ip p.2)) task),
          tr0 ++ [Call.containerInfo, Call.containerNewTask,
            Call.networkCreate config.Network task] ++
            config.Services.map (fun p => Call.Register config.ID p.1 ip p.2) ++
            [Call.taskStart task] ++
            (match w.Start (tr0 ++ [Call.containerInfo, Call.containerNewTask,
                Call.networkCreate config.Network task] ++
                config.Services.map (fun p => Call.Register config.ID p.1 ip p.2)) task with
              | none => [Call.DisableMaintainance config.ID]
              | some _ => [])) ∧
      (newCalls tr (startChange.apply w fuel tr)).filter Call.isRegister =
        config.Services.map (fun p => Call.Register config.ID p.1 ip p.2) ∧
      ((config.Services.map Prod.fst).Nodup → ∀ p ∈ config.Services,
        (newCalls tr (startChange.apply w fuel tr)).count (Call.Register config.ID p.1 ip p.2)
          = 1) ∧
      ∀ answer, startChange.apply (w.withRegister answer) fuel tr = startChange.apply w fuel tr := by
  have hg : getConfig w tr0 = (ConfigResult.ok config, tr0 ++ [Call.containerInfo]) := by
    rw [getConfig_trace, hc]
  have key : startChange.apply w fuel tr =
      (Outcome.returned (w.Start (tr0 ++ [Call.containerInfo, Call.containerNewTask,
          Call.networkCreate config.Network task] ++
          config.Services.map (fun p => Call.Register config.ID p.1 ip p.2)) task),
        tr0 ++ [Call.containerInfo, Call.containerNewTask,
          Call.networkCreate config.Network task] ++
          config.Services.map (fun p => Call.Register config.ID p.1 ip p.2) ++
          [Call.taskStart task] ++
          (match w.Start (tr0 ++ [Call.containerInfo, Call.containerNewTask,
              Call.networkCreate config.Network task] ++
              config.Services.map (fun p => Call.Register config.ID p.1 ip p.2)) task with
            | none => [Call.DisableMaintainance config.ID]
            | some _ => [])) := by
    cases hs : w.Start (tr0 ++ [Call.containerInfo, Call.containerNewTask,
        Call.networkCreate config.Network task] ++
        config.Services.map (fun p => Call.Register config.ID p.1 ip p.2)) task <;>
      simp only [List.append_assoc, List.cons_append, List.nil_append] at hs <;>
      simp [startChange.apply, hk, hg, hn, hnet, hcreate, hip, registerServices_eq, hs]
  obtain ⟨ks, hks, hall⟩ := killTask_calls w fuel tr
  rw [hk] at hks
  simp only at hks
  subst hks
  have hfilter : ks.filter Call.isRegister = [] :=
    List.filter_eq_nil_iff.mpr (fun c hc => by
      simp [(ofKillTask_not_start_call c (hall c hc)).1])
  have hmapfilter : (config.Services.map (fun p => Call.Register config.ID p.1 ip p.2)).filter
      Call.isRegister = config.Services.map (fun p => Call.Register config.ID p.1 ip p.2) :=
    List.filter_eq_self.mpr (fun c hc => by
      obtain ⟨p, _, rfl⟩ := List.mem_map.mp hc
      rfl)
  refine ⟨key, ?_, ?_, fun answer => startChange_apply_withRegister w answer fuel tr⟩
  · rw [key]
    simp only [List.append_assoc, newCalls_append, List.filter_append, hfilter, hmapfilter]
    cases w.Start (tr ++ (ks ++ ([Call.containerInfo, Call.containerNewTask,
      Call.networkCreate config.Network task] ++
      config.Services.map (fun p => Call.Register config.ID p.1 ip p.2)))) task <;>
      simp [Call.isRegister]
  · intro hnodup p hp
    have hks0 : ks.count (Call.Register config.ID p.1 ip p.2) = 0 :=
      List.count_eq_zero_of_not_mem (fun hmem => by
        have h := (ofKillTask_not_start_call _ (hall _ hmem)).1
        simp [Call.isRegister] at h)
    rw [key]
    simp only [List.append_assoc, newCalls_append, List.count_append, hks0,
      count_register_calls config.ID ip config.Services hnodup p hp]
    cases w.Start (tr ++ (ks ++ ([Call.containerInfo, Call.containerNewTask,
      Call.networkCreate config.Network task] ++
      config.Services.map (fun p => Call.Register config.ID p.1 ip p.2)))) task <;>
      simp

/-- The theorem `C8_register_every_service` at the collaborators `calm`: one
`Register` call, for the service `http` at the address `10.0.0.2`. -/
theorem C8_register_every_service_witness :
    (newCalls [] (startChange.apply calm 1 [])).filter Call.isRegister =
      web1.Services.map (fun p => Call.Register web1.ID p.1 "10.0.0.2" p.2) :=
  (C8_register_every_service calm 1 []
    [Call.containerTask, Call.taskWait 1, Call.taskKill 1 Signal.SIGTERM true,
      Call.taskDelete 1 false] none web1 2 bridge0 "10.0.0.2" rfl rfl rfl rfl rfl
    (by decide)).2.1

/-! ## Delete -/

/-- C9 (amended): when the configuration decodes and the map `s.m.networks`
has a binder for the configured network, `deleteChange.apply` makes exactly the calls `os.RemoveAll`, `Info`,
`Deregister(container ID)`, `Remove` on the binder of `config.Network`,
`container.Delete` with `WithSnapshotCleanup`, in that order, and returns the
result of `container.Delete`, whatever `os.RemoveAll`, `Deregister` and `Remove`
return. -/
theorem C9_delete_sequence (w : World) (tr : List Call) (config : Container) (net : Network)
    (hc : (getConfig w (tr ++ [Call.osRemoveAll w.Root w.ID])).1 = ConfigResult.ok config)
    (hnet : w.networks config.Network = some net) :
    deleteChange.apply w tr =
      (Outcome.returned (w.ContainerDelete (tr ++ [Call.osRemoveAll w.Root w.ID,
          Call.containerInfo, Call.Deregister w.ID, Call.networkRemove config.Network])),
        tr ++ [Call.osRemoveAll w.Root w.ID, Call.containerInfo, Call.Deregister w.ID,
          Call.networkRemove config.Network, Call.containerDelete true]) := by
  have hg : getConfig w (tr ++ [Call.osRemoveAll w.Root w.ID]) =
      (ConfigResult.ok config, tr ++ [Call.osRemoveAll w.Root w.ID, Call.containerInfo]) := by
    rw [getConfig_trace, hc]
    simp
  simp [deleteChange.apply, hg, hnet]

/-- The theorem `C9_delete_sequence` at the collaborators `cleanupFails`, where
`os.RemoveAll`, `Deregister` and `Remove` all fail and `container.Delete`
succeeds. -/
theorem C9_delete_sequence_witness :
    deleteChange.apply cleanupFails [] =
      (Outcome.returned none,
        [Call.osRemoveAll "/var/lib/boss" "web1", Call.containerInfo, Call.Deregister "web1",
          Call.networkRemove "bridge0", Call.containerDelete true]) :=
  C9_delete_sequence cleanupFails [] web1
    { Create := fun _ _ => Except.ok "10.0.0.2", Remove := fun _ => some "netns busy" } rfl rfl

/-- C9 (as stated, refuted): on the collaborators `noBinder` the configuration
decodes but `s.m.networks` has no binder for its network; `deleteChange.apply`
panics on the `Remove` of the nil interface after `Deregister`: it returns
nothing, and neither `Remove` nor `container.Delete` is called. -/
theorem C9_counterexample_no_binder :
    (getConfig noBinder [Call.osRemoveAll noBinder.Root noBinder.ID]).1 = ConfigResult.ok web1 ∧
      deleteChange.apply noBinder [] =
        (Outcome.panicked,
          [Call.osRemoveAll "/var/lib/boss" "web1", Call.containerInfo,
            Call.Deregister "web1"]) ∧
      Call.networkRemove "bridge0" ∉ (deleteChange.apply noBinder []).2 ∧
      Call.containerDelete true ∉ (deleteChange.apply noBinder []).2 := by
  have hrun : deleteChange.apply noBinder [] =
      (Outcome.panicked,
        [Call.osRemoveAll "/var/lib/boss" "web1", Call.containerInfo,
          Call.Deregister "web1"]) := by
    simp [deleteChange.apply, getConfig, noBinder, calm, web1]
  refine ⟨rfl, hrun, ?_, ?_⟩
  · rw [hrun]; simp
  · rw [hrun]; simp

end Monitor
